import Mathlib

/-!
# Verification of the Resumator layout-optimization core

Shallow embedding of the three core modules of the Resumator resume builder:

* `src/lib/universalTemplateHelpers.ts` (`validateResumeData`, `estimateContentHeight`)
* `src/lib/layoutOptimizer.ts` (`analyzeContent`, `optimizeLayout`)
* `src/lib/resumePreprocess.ts` (`preprocessResume`)

JavaScript strings are modelled as `List Char` (`Str`); `s.trim()` is
`jsTrim`, `s.slice(0, n)` is `List.take n`, `arr.join(sep)` is `joinSep`,
and `Array.from(new Set xs)` (first-occurrence de-duplication in insertion
order) is `setDedup`.  Machine numbers: every quantity the pipeline
branches on is integral in the source, and is modelled as `Nat`; the
density thresholds (`1.1 / 0.85 / 0.6` of usable height), line heights and
scale factors are modelled as exact rationals, and the PDF-safety height
estimate — whose only fractional term is an exact `length / 4` — is
modelled as the integer four times the height.  The IEEE-754 values of the
fractional constants differ from the exact rationals by less than
`2 ^ (-45)`, and they are only ever compared against integers that are
never within that distance of the real threshold, so every comparison in
this model agrees with the JavaScript one.
-/

namespace Resumator

set_option maxRecDepth 200000

/-- JavaScript strings, modelled as lists of characters. -/
abbrev Str := List Char

/-- The whitespace test used by `String.prototype.trim` (restricted to the
ASCII whitespace actually produced by this code base). -/
def wsChar (c : Char) : Bool := c.isWhitespace

/-- JavaScript `s.trim()`: drop whitespace from both ends. -/
def jsTrim (s : Str) : Str := List.rdropWhile wsChar (List.dropWhile wsChar s)

/-- JavaScript `arr.join(sep)`. -/
def joinSep (sep : Str) : List Str → Str
  | [] => []
  | [x] => x
  | x :: xs => x ++ sep ++ joinSep sep xs

/-- First-occurrence de-duplication, the iteration order of a JavaScript
`Set` built by insertion (`Array.from(new Set xs)`). -/
def setDedup : List Str → List Str
  | [] => []
  | a :: l => a :: (setDedup l).filter (fun b => b ≠ a)

/-- `Math.ceil (a / b)` for non-negative integers. -/
def ceilDiv (a b : Nat) : Nat := (a + b - 1) / b

/-! ## Data model (`src/types/resume`, as consumed by the core) -/

structure Contact where
  phone : Str
  email : Str
  address : Str
  linkedin : Str
deriving DecidableEq, Repr

structure ExpEntry where
  role : Str
  company : Str
  duration : Str
  description : List Str
deriving DecidableEq, Repr

structure EduEntry where
  degree : Str
  school : Str
  year : Str
deriving DecidableEq, Repr

structure CertEntry where
  name : Str
  year : Str
deriving DecidableEq, Repr

structure VolEntry where
  role : Str
  org : Str
  description : List Str
deriving DecidableEq, Repr

/-- A validated resume record: every field present in its expected shape.
This is the output type of `validateResumeData`. -/
structure ResumeData where
  name : Str
  title : Str
  photoUrl : Str
  contact : Contact
  summary : Str
  experience : List ExpEntry
  education : List EduEntry
  certifications : List CertEntry
  achivements : List Str
  volunteer : List VolEntry
  skills : List Str
  softSkills : List Str
  languages : List Str
  interests : List Str
deriving DecidableEq, Repr

/-- A raw, untrusted resume object: any top-level field may be missing
(`none` models a field that is absent or of the wrong type, which the
validator treats the same way). -/
structure RawContact where
  phone : Option Str
  email : Option Str
  address : Option Str
  linkedin : Option Str
deriving DecidableEq, Repr

structure RawResume where
  name : Option Str
  title : Option Str
  photoUrl : Option Str
  contact : Option RawContact
  summary : Option Str
  experience : Option (List ExpEntry)
  education : Option (List EduEntry)
  certifications : Option (List CertEntry)
  achivements : Option (List Str)
  volunteer : Option (List VolEntry)
  skills : Option (List Str)
  softSkills : Option (List Str)
  languages : Option (List Str)
  interests : Option (List Str)
deriving DecidableEq, Repr

/-! ## `universalTemplateHelpers.ts` -/

/-- `validateResumeData`: coerce every expected field to its expected
shape; missing strings become empty, missing arrays become empty. -/
def validateResumeData (data : RawResume) : ResumeData where
  name := data.name.getD []
  title := data.title.getD []
  photoUrl := data.photoUrl.getD []
  contact :=
    { phone := (data.contact.bind RawContact.phone).getD []
      email := (data.contact.bind RawContact.email).getD []
      address := (data.contact.bind RawContact.address).getD []
      linkedin := (data.contact.bind RawContact.linkedin).getD [] }
  summary := data.summary.getD []
  experience := data.experience.getD []
  education := data.education.getD []
  certifications := data.certifications.getD []
  achivements := data.achivements.getD []
  volunteer := data.volunteer.getD []
  skills := data.skills.getD []
  softSkills := data.softSkills.getD []
  languages := data.languages.getD []
  interests := data.interests.getD []

/-- `estimateContentHeight` (the simpler, PDF-safety height heuristic),
scaled by 4.  The source computes
`80 + max(40, summary.length / 80 * 20) + experience.length * 60 + …`;
the summary term is its only non-integer (`length / 80 * 20` is exact real
division, equal to `length / 4`), so four times the height is an integer:
every constant below is the source constant times four, and the summary
term becomes `max 160 length`.  `isPDFSafe` compares the height against
800, i.e. this scaled value against 3200. -/
def estimateContentHeight4 (data : ResumeData) : Nat :=
  320
  + (if data.summary ≠ [] then max 160 data.summary.length else 0)
  + data.experience.length * 240
  + (data.experience.map (fun exp => exp.description.length)).sum * 80
  + data.education.length * 160
  + (if data.achivements ≠ [] then min (data.achivements.length * 80) 400 else 0)
  + (if data.volunteer ≠ [] then data.volunteer.length * 200 else 0)
  + (if data.skills ≠ [] then 160 else 0)
  + (if data.softSkills ≠ [] then 120 else 0)
  + (if data.certifications ≠ [] then data.certifications.length * 100 else 0)
  + (if data.languages ≠ [] then 120 else 0)
  + (if data.interests ≠ [] then 120 else 0)

/-! ## `layoutOptimizer.ts` -/

/-- `A4_DIMENSIONS.usableHeight` (1123 px total minus two 32 px margins). -/
def usableHeight : Nat := 1059

inductive Density
  | sparse
  | normal
  | dense
  | overflow
deriving DecidableEq, Repr

structure ContentMetrics where
  experienceCount : Nat
  educationCount : Nat
  skillsCount : Nat
  achievementsCount : Nat
  totalBulletPoints : Nat
  summaryLength : Nat
  hasImage : Bool
  sectionCount : Nat
  estimatedHeight : Nat
  contentDensity : Density
deriving DecidableEq, Repr

/-- `analyzeContent`.  A non-array `description` contributes `1` to
`totalBulletPoints` in the source; descriptions are always lists in this
model, so that branch cannot fire here. -/
def analyzeContent (data : ResumeData) : ContentMetrics :=
  let experienceCount := data.experience.length
  let educationCount := data.education.length
  let skillsCount := data.skills.length
  let achievementsCount := data.achivements.length
  let summaryLength := data.summary.length
  let totalBulletPoints :=
    data.experience.foldl (fun total exp => total + exp.description.length) 0
  let sectionCount :=
    (if data.summary ≠ [] then 1 else 0) + (if experienceCount > 0 then 1 else 0)
    + (if educationCount > 0 then 1 else 0) + (if skillsCount > 0 then 1 else 0)
    + (if data.softSkills ≠ [] then 1 else 0) + (if data.languages ≠ [] then 1 else 0)
    + (if data.certifications ≠ [] then 1 else 0) + (if achievementsCount > 0 then 1 else 0)
    + (if data.volunteer ≠ [] then 1 else 0) + (if data.interests ≠ [] then 1 else 0)
  let estimatedHeight :=
    100
    + (if data.photoUrl ≠ [] then 40 else 0)
    + (if data.summary ≠ [] then 30 + ceilDiv summaryLength 80 * 16 else 0)
    + (if experienceCount > 0 then
        35 + min experienceCount 6 * 60 + min totalBulletPoints (min experienceCount 6 * 4) * 16
      else 0)
    + (if educationCount > 0 then 35 + min educationCount 4 * 45 else 0)
    + (if skillsCount > 0 then 35 + ceilDiv skillsCount 6 * 25 else 0)
    + (if data.softSkills ≠ [] then 35 + ceilDiv data.softSkills.length 4 * 20 else 0)
    + (if data.languages ≠ [] then 55 else 0)
    + (if data.certifications ≠ [] then 35 + min data.certifications.length 4 * 25 else 0)
    + (if achievementsCount > 0 then 35 + min achievementsCount 6 * 18 else 0)
    + (if data.volunteer ≠ [] then 35 + min data.volunteer.length 3 * 50 else 0)
    + (if data.interests ≠ [] then 55 else 0)
  let contentDensity : Density :=
    if (estimatedHeight : ℚ) > (usableHeight : ℚ) * 1.1 then .overflow
    else if (estimatedHeight : ℚ) > (usableHeight : ℚ) * 0.85 then .dense
    else if (estimatedHeight : ℚ) < (usableHeight : ℚ) * 0.6 then .sparse
    else .normal
  { experienceCount := experienceCount
    educationCount := educationCount
    skillsCount := skillsCount
    achievementsCount := achievementsCount
    totalBulletPoints := totalBulletPoints
    summaryLength := summaryLength
    hasImage := data.photoUrl ≠ []
    sectionCount := sectionCount
    estimatedHeight := estimatedHeight
    contentDensity := contentDensity }

inductive TemplateType
  | minimal
  | modern
  | creative
deriving DecidableEq, Repr

structure LayoutConfig where
  nameFontSize : Nat
  titleFontSize : Nat
  sectionTitleFontSize : Nat
  bodyFontSize : Nat
  smallFontSize : Nat
  sectionSpacing : Nat
  itemSpacing : Nat
  lineHeight : ℚ
  containerPadding : Nat
  sidebarWidth : Option Nat
  compactMode : Bool
  scaleFactor : ℚ
  maxExperienceItems : Nat
  maxEducationItems : Nat
  maxBulletsPerExp : Nat
  maxSkillsDisplay : Nat
  maxAchievements : Nat
  templateType : TemplateType
deriving DecidableEq, Repr

/-- The per-template base configurations of `optimizeLayout`. -/
def baseConfig : TemplateType → LayoutConfig
  | .minimal =>
    { nameFontSize := 32, titleFontSize := 18, sectionTitleFontSize := 16
      bodyFontSize := 12, smallFontSize := 11
      sectionSpacing := 24, itemSpacing := 14, lineHeight := 1.4, containerPadding := 32
      sidebarWidth := none, compactMode := false, scaleFactor := 1
      maxExperienceItems := 6, maxEducationItems := 4, maxBulletsPerExp := 4
      maxSkillsDisplay := 20, maxAchievements := 8, templateType := .minimal }
  | .modern =>
    { nameFontSize := 36, titleFontSize := 20, sectionTitleFontSize := 15
      bodyFontSize := 13, smallFontSize := 11
      sectionSpacing := 28, itemSpacing := 18, lineHeight := 1.5, containerPadding := 40
      sidebarWidth := some 220, compactMode := false, scaleFactor := 1
      maxExperienceItems := 5, maxEducationItems := 4, maxBulletsPerExp := 4
      maxSkillsDisplay := 16, maxAchievements := 6, templateType := .modern }
  | .creative =>
    { nameFontSize := 34, titleFontSize := 18, sectionTitleFontSize := 15
      bodyFontSize := 12, smallFontSize := 11
      sectionSpacing := 22, itemSpacing := 16, lineHeight := 1.4, containerPadding := 36
      sidebarWidth := none, compactMode := false, scaleFactor := 1
      maxExperienceItems := 5, maxEducationItems := 4, maxBulletsPerExp := 3
      maxSkillsDisplay := 18, maxAchievements := 6, templateType := .creative }

/-- The density-indexed adjustment branch of `optimizeLayout` (the
`switch (metrics.contentDensity)` statement). -/
def densityAdjust (templateType : TemplateType) (config : LayoutConfig) :
    Density → LayoutConfig
  | .overflow =>
    { config with
      nameFontSize := max (config.nameFontSize - 6) 26
      titleFontSize := max (config.titleFontSize - 3) 15
      sectionTitleFontSize := max (config.sectionTitleFontSize - 2) 13
      bodyFontSize := max (config.bodyFontSize - 1) 11
      smallFontSize := max (config.smallFontSize - 1) 10
      sectionSpacing := max (config.sectionSpacing - 8) 16
      itemSpacing := max (config.itemSpacing - 4) 10
      lineHeight := max (config.lineHeight - 0.1) 1.3
      containerPadding := max (config.containerPadding - 8) 24
      maxExperienceItems := max (config.maxExperienceItems - 2) 3
      maxBulletsPerExp := max (config.maxBulletsPerExp - 1) 2
      maxAchievements := max (config.maxAchievements - 2) 4
      compactMode := true
      scaleFactor := 0.95
      sidebarWidth :=
        if templateType = .modern then
          config.sidebarWidth.map (fun w => max (w - 30) 180)
        else config.sidebarWidth }
  | .dense =>
    { config with
      nameFontSize := max (config.nameFontSize - 2) 28
      sectionSpacing := max (config.sectionSpacing - 4) 18
      itemSpacing := max (config.itemSpacing - 2) 12
      maxBulletsPerExp := max (config.maxBulletsPerExp - 1) 3
      compactMode := true
      scaleFactor := 0.98 }
  | .sparse =>
    { config with
      nameFontSize := min (config.nameFontSize + 4) 40
      titleFontSize := min (config.titleFontSize + 2) 22
      sectionTitleFontSize := min (config.sectionTitleFontSize + 1) 17
      bodyFontSize := min (config.bodyFontSize + 1) 14
      sectionSpacing := min (config.sectionSpacing + 6) 36
      itemSpacing := min (config.itemSpacing + 4) 22
      lineHeight := min (config.lineHeight + 0.1) 1.6
      compactMode := false
      scaleFactor := 1.02
      sidebarWidth :=
        if templateType = .modern then
          config.sidebarWidth.map (fun w => min (w + 20) 250)
        else config.sidebarWidth }
  | .normal =>
    { config with compactMode := false, scaleFactor := 1 }

/-- `optimizeLayout`: re-run the analyzer, then adjust the template's base
configuration according to the density. -/
def optimizeLayout (data : ResumeData) (templateType : TemplateType) : LayoutConfig :=
  densityAdjust templateType (baseConfig templateType) (analyzeContent data).contentDensity

/-! ## `resumePreprocess.ts`

The name and per-section font sizes attached by the preprocessor
(`nameFontSize`, `sectionFontSizes`) are computed in the source with
floating-point `Math.pow` and feed only the rendering layer; the content
pipeline below never reads them, and they are not part of this model.  All
remaining layout hints are exact integers and are modelled in full. -/

/-- The `uniqStrings` helper: trim, drop empties, de-duplicate keeping
first occurrences. -/
def uniqStrings (arr : List Str) : List Str :=
  setDedup ((arr.map jsTrim).filter (fun s => s ≠ []))

/-- `joinExpText`, the character-count heuristic over experience. -/
def joinExpText (exp : List ExpEntry) : Str :=
  joinSep [' '] (exp.map (fun e =>
    e.role ++ [' '] ++ e.company ++ [' '] ++ e.duration ++ [' '] ++ joinSep [' '] e.description))

/-- `joinEduText`. -/
def joinEduText (edu : List EduEntry) : Str :=
  joinSep [' '] (edu.map (fun e => e.degree ++ [' '] ++ e.school ++ [' '] ++ e.year))

/-- `joinSimple`. -/
def joinSimple (arr : List Str) : Str := joinSep [' '] arr

/-- The total character count over all textual fields, floored at 50
("Minimum character count to prevent division by zero"). -/
def totalCharsOf (data : ResumeData) : Nat :=
  max
    (data.name.length + data.title.length + data.summary.length
      + (joinExpText data.experience).length
      + (joinEduText data.education).length
      + (joinSimple data.skills).length
      + (joinSimple data.softSkills).length
      + (joinSimple data.achivements).length
      + (joinSimple data.languages).length
      + (joinSep [' '] (data.certifications.map (fun c => c.name ++ c.year))).length
      + (joinSep [' '] (data.volunteer.map (fun v =>
          v.role ++ [' '] ++ v.org ++ [' '] ++ joinSep [' '] v.description))).length)
    50

/-- `isPDFSafe`: the rough A4 threshold on the simple height estimate
(`estimatedHeight ≤ 800`, stated on the 4-times-scaled integer value). -/
def isPDFSafe (data : ResumeData) : Bool := estimateContentHeight4 data ≤ 3200

/-- The binary compact-mode decision: character density or PDF danger. -/
def compactModeOf (data : ResumeData) : Bool :=
  totalCharsOf data > 2200 || !isPDFSafe data

/-- Compact / non-compact cap on experience entries. -/
def maxExpItems (compact : Bool) : Nat := if compact then 3 else 6

/-- Compact / non-compact cap on bullets per experience entry. -/
def maxBullets (compact : Bool) : Nat := if compact then 2 else 4

/-- Compact / non-compact cap on education entries. -/
def maxEduItems (compact : Bool) : Nat := if compact then 2 else 6

/-- Compact / non-compact per-line truncation limit. -/
def truncLimit (compact : Bool) : Nat := if compact then 120 else 220

/-- The sanitization filter on experience: `exp && (exp.role || exp.company)`,
i.e. keep an entry iff its role or its company is a non-empty string. -/
def keepExp (e : ExpEntry) : Bool := e.role ≠ [] || e.company ≠ []

/-- The sanitization filter on education: keep an entry iff its degree or
its school is non-empty. -/
def keepEdu (e : EduEntry) : Bool := e.degree ≠ [] || e.school ≠ []

/-- The achievement string synthesized from an overflowing experience
entry: `"role — company"` (trimmed), then up to `maxB` trimmed bullets,
non-empty pieces joined with `" • "`. -/
def expOverflowEntry (maxB : Nat) (e : ExpEntry) : Str :=
  let title := jsTrim (e.role ++ [' ', '—', ' '] ++ e.company)
  let bullets := (e.description.take maxB).map jsTrim
  joinSep [' ', '•', ' '] ((title :: bullets).filter (fun s => s ≠ []))

/-- The achievement string synthesized from an overflowing education
entry: `"degree — school year"`, trimmed. -/
def eduOverflowEntry (e : EduEntry) : Str :=
  jsTrim (e.degree ++ [' ', '—', ' '] ++ e.school ++ [' '] ++ jsTrim e.year)

/-- Per-line truncation: strings longer than `limit` are cut to
`limit - 1` characters, trimmed, and an ellipsis is appended. -/
def truncateLine (limit : Nat) (d : Str) : Str :=
  if limit < d.length then jsTrim (d.take (limit - 1)) ++ ['…'] else d

/-- The bullet rewriting applied to each kept experience entry: keep the
first `maxB` bullets, trim each, truncate each. -/
def rewriteExp (maxB limit : Nat) (e : ExpEntry) : ExpEntry :=
  { e with description := ((e.description.take maxB).map jsTrim).map (truncateLine limit) }

/-- The achievement strings synthesized from experience overflow (the
entries beyond the cap in the sanitized list). -/
def expExtras (compact : Bool) (experience : List ExpEntry) : List Str :=
  ((experience.drop (maxExpItems compact)).map
    (expOverflowEntry (maxBullets compact))).filter (fun s => s ≠ [])

/-- The achievement strings synthesized from education overflow. -/
def eduExtras (compact : Bool) (education : List EduEntry) : List Str :=
  ((education.drop (maxEduItems compact)).map eduOverflowEntry).filter (fun s => s ≠ [])

/-- The content transformation of `preprocessResume` (lines 149–191 of the
source), at a fixed compact-mode flag: sanitize and cap experience and
education, relocate overflow into achievements, rewrite bullets, and
normalize the simple lists. -/
def dataTransform (compact : Bool) (data : ResumeData) : ResumeData :=
  let experience₁ := data.experience.filter keepExp
  let education₁ := data.education.filter keepEdu
  let extraAchievements := expExtras compact experience₁ ++ eduExtras compact education₁
  { data with
    experience := (experience₁.take (maxExpItems compact)).map
      (rewriteExp (maxBullets compact) (truncLimit compact))
    education := education₁.take (maxEduItems compact)
    certifications :=
      (data.certifications.map (fun c => ⟨jsTrim c.name, jsTrim c.year⟩)).take 20
    softSkills := (uniqStrings data.softSkills).take (if compact then 6 else 12)
    skills := (uniqStrings data.skills).take (if compact then 12 else 30)
    languages := (uniqStrings data.languages).take (if compact then 3 else 8)
    achivements :=
      ((setDedup (data.achivements.map jsTrim ++ extraAchievements)).filter
        (fun s => s ≠ [])).take (if compact then 6 else 12) }

/-- The layout hints attached to the record (minus the floating-point
font sizes, see the section comment). -/
structure LayoutHints where
  compactMode : Bool
  maxExperienceItems : Nat
  maxBulletsPerExp : Nat
  maxEducationItems : Nat
  truncateCharPerLine : Nat
  sidebarWidthPx : Nat
deriving DecidableEq, Repr

/-- The layout hints computed for a given compact-mode flag. -/
def layoutHintsOf (compact : Bool) : LayoutHints where
  compactMode := compact
  maxExperienceItems := maxExpItems compact
  maxBulletsPerExp := maxBullets compact
  maxEducationItems := maxEduItems compact
  truncateCharPerLine := truncLimit compact
  sidebarWidthPx := 180

/-- The annotated record returned by the preprocessor. -/
structure ProcessedResume extends ResumeData where
  layoutHints : LayoutHints
  layoutConfig : LayoutConfig
  contentMetrics : ContentMetrics
deriving DecidableEq, Repr

/-- The body of `preprocessResume` on a present input: validate (the JSON
round-trip deep copy is the identity on this value model), transform the
content, and attach the hints, the `optimizeLayout` configuration computed
for the default `modern` template, and the analyzer metrics. -/
def preprocessCore (input : RawResume) : ProcessedResume :=
  let data := validateResumeData input
  let compact := compactModeOf data
  { toResumeData := dataTransform compact data
    layoutHints := layoutHintsOf compact
    layoutConfig := optimizeLayout data .modern
    contentMetrics := analyzeContent data }

/-- `preprocessResume`: throws exactly when the input object itself is
absent (`null` / `undefined`), and otherwise returns the processed copy. -/
def preprocessResume : Option RawResume → Except String ProcessedResume
  | none => Except.error "preprocessResume: input is required"
  | some input => Except.ok (preprocessCore input)

/-- The final degenerate-content diagnostic (line 212): the processed
record has no name, no title, no summary and no experience entries.  This
is logged as a warning; the record is still returned. -/
def degenerateWarning (data : ProcessedResume) : Bool :=
  data.name.isEmpty && data.title.isEmpty && data.summary.isEmpty && data.experience.isEmpty

/-- Re-injection of a processed record as a raw input (every field
present), for feeding the preprocessor its own output. -/
def toRaw (d : ProcessedResume) : RawResume where
  name := some d.name
  title := some d.title
  photoUrl := some d.photoUrl
  contact := some
    { phone := some d.contact.phone, email := some d.contact.email
      address := some d.contact.address, linkedin := some d.contact.linkedin }
  summary := some d.summary
  experience := some d.experience
  education := some d.education
  certifications := some d.certifications
  achivements := some d.achivements
  volunteer := some d.volunteer
  skills := some d.skills
  softSkills := some d.softSkills
  languages := some d.languages
  interests := some d.interests

/-! ## Specification-side definitions and concrete example records -/

/-- `l` is a fixed point of `jsTrim` (already trimmed on both ends). -/
def Trimmed (l : Str) : Prop := jsTrim l = l

instance (l : Str) : Decidable (Trimmed l) :=
  inferInstanceAs (Decidable (jsTrim l = l))

/-- The density classification exactly as the specification words it:
strictly above 110% of usable page height is overflow, strictly above 85%
is dense, strictly below 60% is sparse, and everything else is normal. -/
def densitySpec (h : ℚ) : Density :=
  if h > (usableHeight : ℚ) * 1.1 then .overflow
  else if h > (usableHeight : ℚ) * 0.85 then .dense
  else if h < (usableHeight : ℚ) * 0.6 then .sparse
  else .normal

/-- A raw input with every field absent. -/
def emptyRaw : RawResume :=
  ⟨none, none, none, none, none, none, none, none, none, none, none, none, none, none⟩

/-- The fully defaulted resume record. -/
def emptyResume : ResumeData :=
  ⟨[], [], [], ⟨[], [], [], []⟩, [], [], [], [], [], [], [], [], [], []⟩

/-- An experience entry with only a role and a company. -/
def mkExp (r c : Str) : ExpEntry := ⟨r, c, [], []⟩

/-- Input for the sanitization-filter example: three experience entries of
which one has neither role nor company, and two education entries of which
one has neither degree nor school. -/
def c10Raw : RawResume :=
  { emptyRaw with
    experience := some [mkExp ("Dev".data) ("Acme".data), ⟨[], [], "2020".data, ["x".data]⟩,
      mkExp ("QA".data) ("Beta".data)]
    education := some [⟨[], [], "2019".data⟩, ⟨"BS".data, "MIT".data, "2020".data⟩] }

/-- Input with duplicate certification entries. -/
def c5Raw : RawResume :=
  { emptyRaw with certifications := some [⟨['A'], ['1']⟩, ⟨['A'], ['1']⟩] }

/-- Input with duplicate and untrimmed skills. -/
def c5SkillsRaw : RawResume :=
  { emptyRaw with skills := some ["Go".data, " Go".data, "Rust".data] }

/-- The de-duplication example input of the specification. -/
def c6Raw : RawResume :=
  { emptyRaw with achivements := some ["Led team".data, "Led team".data, "Shipped X".data] }

/-- Input with eight experience entries (each with role and company text)
and twelve distinct pre-existing achievements.  The record is far below
both compact-mode triggers, so the non-compact cap of 6 applies. -/
def c2Raw : RawResume :=
  { emptyRaw with
    experience := some [mkExp ("x1".data) ("y1".data), mkExp ("x2".data) ("y2".data),
      mkExp ("x3".data) ("y3".data), mkExp ("x4".data) ("y4".data), mkExp ("x5".data) ("y5".data),
      mkExp ("x6".data) ("y6".data), mkExp ("x7".data) ("y7".data), mkExp ("x8".data) ("y8".data)]
    achivements := some ["a01".data, "a02".data, "a03".data, "a04".data, "a05".data,
      "a06".data, "a07".data, "a08".data, "a09".data, "a10".data, "a11".data, "a12".data] }

/-- Input for the overflow-relocation witness: eight experience entries
and no pre-existing achievements. -/
def c2SmallRaw : RawResume :=
  { emptyRaw with
    experience := some [mkExp ("x1".data) ("y1".data), mkExp ("x2".data) ("y2".data),
      mkExp ("x3".data) ("y3".data), mkExp ("x4".data) ("y4".data), mkExp ("x5".data) ("y5".data),
      mkExp ("x6".data) ("y6".data), mkExp ("x7".data) ("y7".data), mkExp ("x8".data) ("y8".data)] }

/-- Input for the education-relocation witness: seven education entries
(one beyond the non-compact cap of 6), nothing else. -/
def c2EduRaw : RawResume :=
  { emptyRaw with
    education := some [⟨"BS1".data, "U1".data, "2001".data⟩,
      ⟨"BS2".data, "U2".data, "2002".data⟩, ⟨"BS3".data, "U3".data, "2003".data⟩,
      ⟨"BS4".data, "U4".data, "2004".data⟩, ⟨"BS5".data, "U5".data, "2005".data⟩,
      ⟨"BS6".data, "U6".data, "2006".data⟩, ⟨"BS7".data, "U7".data, "2007".data⟩] }

/-- A 300-character bullet whose 119-character prefix ends in a space. -/
def c4Bullet : Str := List.replicate 118 'a' ++ [' '] ++ List.replicate 181 'b'

/-- What the pipeline actually produces from `c4Bullet` in compact mode:
the 118 leading characters (trailing space trimmed away) plus the
ellipsis — 119 characters, not 120. -/
def c4Truncated : Str := List.replicate 118 'a' ++ ['…']

/-- Input forcing compact mode through the PDF-safety height estimate
(13 experience entries): the first entry carries `c4Bullet`. -/
def c4Raw : RawResume :=
  { emptyRaw with
    experience := some (⟨['r'], ['c'], [], [c4Bullet]⟩ ::
      List.replicate 12 (mkExp ['r'] ['c'])) }

/-- The processed record for the truncation example. -/
def c4Out : ProcessedResume := preprocessCore c4Raw

/-- Input for the truncation witness: compact mode, one 300-character
bullet with no whitespace. -/
def c4CleanBullet : Str := List.replicate 300 'a'

def c4CleanRaw : RawResume :=
  { emptyRaw with
    experience := some (⟨['r'], ['c'], [], [c4CleanBullet]⟩ ::
      List.replicate 12 (mkExp ['r'] ['c'])) }

/-- A borderline record for the idempotence claim: its character-count
metric is exactly 2200 (the compact threshold), it is PDF-safe, and its
seventh experience entry carries four bullets.  The first pass is
non-compact; relocating the seventh entry into achievements rewrites its
text from `"R C  b b b b"` (13 characters inside the join) to
`"R — C • b • b • b • b"` (21 characters), so the second pass sees 2208
characters and flips to compact mode. -/
def c8Raw : RawResume :=
  { emptyRaw with
    name := some (List.replicate 420 'n')
    title := some (List.replicate 420 't')
    summary := some (List.replicate 331 's')
    experience := some (List.replicate 6 (mkExp ['R'] ['C']) ++
      [⟨['R'], ['C'], [], [['b'], ['b'], ['b'], ['b']]⟩])
    skills := some ([List.replicate 40 'a', List.replicate 40 'c', List.replicate 40 'd',
      List.replicate 40 'e', List.replicate 40 'f', List.replicate 40 'g',
      List.replicate 40 'h', List.replicate 40 'i', List.replicate 40 'j',
      List.replicate 40 's'])
    softSkills := some ([List.replicate 40 'k', List.replicate 40 'l', List.replicate 40 'm',
      List.replicate 40 'o', List.replicate 40 'p', List.replicate 40 'q',
      List.replicate 40 'u', List.replicate 40 'v'])
    languages := some ([List.replicate 40 'w', List.replicate 40 'x', List.replicate 40 'y',
      List.replicate 40 'z', List.replicate 40 '0', List.replicate 40 '1']) }

/-- The first pass over `c8Raw`. -/
def c8Out1 : ProcessedResume := preprocessCore c8Raw

/-- The second pass, fed the first pass's own output. -/
def c8Out2 : ProcessedResume := preprocessCore (toRaw c8Out1)

/-! ## Properties of the string helpers -/

theorem dropWhile_ws_length_le (l : Str) : (List.dropWhile wsChar l).length ≤ l.length :=
  (List.dropWhile_suffix wsChar).sublist.length_le

theorem jsTrim_length_le (l : Str) : (jsTrim l).length ≤ l.length :=
  le_trans (List.rdropWhile_prefix wsChar _).sublist.length_le (dropWhile_ws_length_le l)

theorem trimmed_iff {l : Str} :
    Trimmed l ↔ List.dropWhile wsChar l = l ∧ List.rdropWhile wsChar l = l := by
  constructor
  · intro h
    have len1 : (jsTrim l).length ≤ (List.dropWhile wsChar l).length :=
      (List.rdropWhile_prefix wsChar _).sublist.length_le
    have len2 : (List.dropWhile wsChar l).length ≤ l.length := dropWhile_ws_length_le l
    have hlen : (jsTrim l).length = l.length := by rw [h]
    have hd : List.dropWhile wsChar l = l :=
      (List.dropWhile_suffix wsChar).sublist.eq_of_length (by omega)
    refine ⟨hd, ?_⟩
    have : jsTrim l = List.rdropWhile wsChar l := by unfold jsTrim; rw [hd]
    rw [← this, h]
  · rintro ⟨h1, h2⟩
    unfold Trimmed jsTrim
    rw [h1, h2]

theorem head?_dropWhile_ws {l : Str} {c : Char} :
    (List.dropWhile wsChar l).head? = some c → wsChar c = false := by
  induction l with
  | nil => simp
  | cons a t ih =>
    rw [List.dropWhile_cons]
    by_cases ha : wsChar a = true
    · simpa [ha] using ih
    · intro hc
      rw [if_neg ha] at hc
      simp only [List.head?_cons, Option.some.injEq] at hc
      subst hc
      simpa using ha

theorem rdropWhile_getLast?_ws {l : Str} {c : Char} :
    (List.rdropWhile wsChar l).getLast? = some c → wsChar c = false := by
  intro hc
  have hne : List.rdropWhile wsChar l ≠ [] := by
    rcases List.getLast?_eq_some_iff.mp hc with ⟨ys, hy⟩
    simp [hy]
  have hlast := List.rdropWhile_last_not wsChar l hne
  rw [List.getLast?_eq_getLast _ hne, Option.some.injEq] at hc
  rw [hc] at hlast
  simpa using hlast

theorem Trimmed.head_ws {l : Str} (h : Trimmed l) {c : Char} (hc : l.head? = some c) :
    wsChar c = false := by
  have h1 := (trimmed_iff.mp h).1
  exact head?_dropWhile_ws (h1 ▸ hc)

theorem Trimmed.getLast_ws {l : Str} (h : Trimmed l) {c : Char} (hc : l.getLast? = some c) :
    wsChar c = false := by
  have h2 := (trimmed_iff.mp h).2
  exact rdropWhile_getLast?_ws (h2 ▸ hc)

theorem trimmed_of {l : Str} (hh : ∀ c, l.head? = some c → wsChar c = false)
    (hl : ∀ c, l.getLast? = some c → wsChar c = false) : Trimmed l := by
  rw [trimmed_iff]
  constructor
  · rcases l with _ | ⟨a, t⟩
    · rfl
    · have := hh a rfl
      simp [List.dropWhile_cons, this]
  · rw [List.rdropWhile_eq_self_iff]
    intro hne
    have := hl _ (List.getLast?_eq_getLast l hne)
    simp [this]

theorem trimmed_nil : Trimmed [] := rfl

theorem trimmed_jsTrim (l : Str) : Trimmed (jsTrim l) := by
  apply trimmed_of
  · intro c hc
    have hpre : jsTrim l <+: List.dropWhile wsChar l :=
      List.rdropWhile_prefix wsChar (List.dropWhile wsChar l)
    obtain ⟨rest, hrest⟩ := hpre
    have hne : jsTrim l ≠ [] := by
      intro h0
      rw [h0] at hc
      simp at hc
    have hhead : (List.dropWhile wsChar l).head? = some c := by
      rw [← hrest, List.head?_append_of_ne_nil _ hne, hc]
    exact head?_dropWhile_ws hhead
  · intro c hc
    exact rdropWhile_getLast?_ws hc

theorem jsTrim_idem (l : Str) : jsTrim (jsTrim l) = jsTrim l := trimmed_jsTrim l

theorem jsTrim_eq_of_trimmed {l : Str} (h : Trimmed l) : jsTrim l = l := h

/-- Appending two non-empty trimmed strings yields a trimmed string. -/
theorem Trimmed.append {x y : Str} (hx : Trimmed x) (hy : Trimmed y)
    (hx0 : x ≠ []) (hy0 : y ≠ []) : Trimmed (x ++ y) := by
  apply trimmed_of
  · intro c hc
    rw [List.head?_append_of_ne_nil _ hx0] at hc
    exact hx.head_ws hc
  · intro c hc
    rw [List.getLast?_append] at hc
    rcases hy' : y.getLast? with _ | d
    · exact absurd (List.getLast?_eq_getLast y hy0 ▸ hy') (by simp)
    · rw [hy'] at hc
      simp only [Option.or_some, Option.some.injEq] at hc
      exact hy.getLast_ws (hc ▸ hy')

/-- Appending a non-whitespace character to a trimmed string keeps it
trimmed. -/
theorem Trimmed.append_char {x : Str} {c : Char} (hx : Trimmed x)
    (hc : wsChar c = false) : Trimmed (x ++ [c]) := by
  have hcT : Trimmed [c] := by
    apply trimmed_of
    · intro d hd
      simp only [List.head?_cons, Option.some.injEq] at hd
      subst hd
      exact hc
    · intro d hd
      simp only [List.getLast?_singleton, Option.some.injEq] at hd
      subst hd
      exact hc
  rcases eq_or_ne x [] with rfl | hx0
  · simpa using hcT
  · exact hx.append hcT hx0 (by simp)

/-- `joinSep` of a non-empty list of non-empty pieces is non-empty. -/
theorem joinSep_ne_nil {sep : Str} {pieces : List Str} (h0 : pieces ≠ [])
    (h : ∀ p ∈ pieces, p ≠ []) : joinSep sep pieces ≠ [] := by
  rcases pieces with _ | ⟨x, t⟩
  · exact absurd rfl h0
  · rcases t with _ | ⟨y, u⟩
    · exact h x (by simp)
    · show x ++ sep ++ joinSep sep (y :: u) ≠ []
      have := h x (by simp)
      simp [this]

/-- Joining non-empty trimmed pieces (with any separator) is trimmed:
the first character comes from the first piece, the last from the last. -/
theorem trimmed_joinSep {sep : Str} {pieces : List Str}
    (h : ∀ p ∈ pieces, Trimmed p ∧ p ≠ []) : Trimmed (joinSep sep pieces) := by
  induction pieces with
  | nil => exact trimmed_nil
  | cons x t ih =>
    rcases t with _ | ⟨y, u⟩
    · exact (h x (by simp)).1
    · show Trimmed (x ++ sep ++ joinSep sep (y :: u))
      obtain ⟨hxT, hx0⟩ := h x (by simp)
      have htail : ∀ p ∈ y :: u, Trimmed p ∧ p ≠ [] := fun p hp => h p (by simp [hp])
      have hjT : Trimmed (joinSep sep (y :: u)) := ih htail
      have hj0 : joinSep sep (y :: u) ≠ [] :=
        joinSep_ne_nil (by simp) fun p hp => (htail p hp).2
      apply trimmed_of
      · intro c hc
        rw [List.append_assoc, List.head?_append_of_ne_nil _ hx0] at hc
        exact hxT.head_ws hc
      · intro c hc
        rw [List.getLast?_append] at hc
        rcases hj' : (joinSep sep (y :: u)).getLast? with _ | d
        · exact absurd (List.getLast?_eq_getLast _ hj0 ▸ hj') (by simp)
        · rw [hj'] at hc
          simp only [Option.or_some, Option.some.injEq] at hc
          exact hjT.getLast_ws (hc ▸ hj')

/-! ## Properties of `setDedup` -/

theorem mem_setDedup {a : Str} : ∀ {l : List Str}, a ∈ setDedup l ↔ a ∈ l := by
  intro l
  induction l with
  | nil => simp [setDedup]
  | cons b t ih =>
    simp only [setDedup, List.mem_cons, List.mem_filter, ih, decide_eq_true_eq]
    by_cases hab : a = b <;> simp [hab]

theorem setDedup_nodup : ∀ l : List Str, (setDedup l).Nodup := by
  intro l
  induction l with
  | nil => simp [setDedup]
  | cons b t ih =>
    simp only [setDedup, List.nodup_cons]
    refine ⟨?_, ih.filter _⟩
    simp [List.mem_filter]

theorem setDedup_sublist : ∀ l : List Str, (setDedup l).Sublist l := by
  intro l
  induction l with
  | nil => simp [setDedup]
  | cons b t ih =>
    exact ((List.filter_sublist _).trans ih).cons₂ b

theorem setDedup_eq_self : ∀ {l : List Str}, l.Nodup → setDedup l = l := by
  intro l
  induction l with
  | nil => simp [setDedup]
  | cons b t ih =>
    intro h
    rw [List.nodup_cons] at h
    show b :: (setDedup t).filter (fun x => x ≠ b) = b :: t
    rw [ih h.2, List.filter_eq_self.mpr]
    intro a ha
    simp only [decide_eq_true_eq]
    rintro rfl
    exact h.1 ha

/-! ## Properties of `uniqStrings` and `truncateLine` -/

theorem uniqStrings_nodup (l : List Str) : (uniqStrings l).Nodup :=
  setDedup_nodup _

theorem uniqStrings_mem {s : Str} {l : List Str} (h : s ∈ uniqStrings l) :
    Trimmed s ∧ s ≠ [] := by
  unfold uniqStrings at h
  rw [mem_setDedup, List.mem_filter] at h
  obtain ⟨hmem, hne⟩ := h
  rw [List.mem_map] at hmem
  obtain ⟨x, _, rfl⟩ := hmem
  exact ⟨trimmed_jsTrim x, by simpa using hne⟩

theorem map_jsTrim_eq_self : ∀ {l : List Str}, (∀ s ∈ l, Trimmed s) → l.map jsTrim = l := by
  intro l
  induction l with
  | nil => intro _; rfl
  | cons a t ih =>
    intro h
    have ha : jsTrim a = a := h a (by simp)
    simp only [List.map_cons, ha, List.cons.injEq, true_and]
    exact ih fun s hs => h s (by simp [hs])

theorem uniqStrings_eq_self {l : List Str} (hnd : l.Nodup)
    (h : ∀ s ∈ l, Trimmed s ∧ s ≠ []) : uniqStrings l = l := by
  unfold uniqStrings
  rw [map_jsTrim_eq_self fun s hs => (h s hs).1, List.filter_eq_self.mpr,
    setDedup_eq_self hnd]
  intro a ha
  simpa using (h a ha).2

theorem truncateLine_of_le {limit : Nat} {d : Str} (h : d.length ≤ limit) :
    truncateLine limit d = d := by
  unfold truncateLine
  rw [if_neg (by omega)]

theorem truncateLine_length_le {limit : Nat} (hl : 0 < limit) (d : Str) :
    (truncateLine limit d).length ≤ limit := by
  unfold truncateLine
  split
  · rename_i h
    have h1 : (jsTrim (d.take (limit - 1))).length ≤ (d.take (limit - 1)).length :=
      jsTrim_length_le _
    have h2 : (d.take (limit - 1)).length ≤ limit - 1 := by
      rw [List.length_take]; omega
    simp only [List.length_append, List.length_cons, List.length_nil]
    omega
  · rename_i h
    omega

theorem truncateLine_trimmed {limit : Nat} {d : Str} (h : Trimmed d) :
    Trimmed (truncateLine limit d) := by
  unfold truncateLine
  split
  · exact (trimmed_jsTrim _).append_char (by decide)
  · exact h

theorem truncateLine_length_eq {limit : Nat} {d : Str} (hl : 0 < limit)
    (hgt : limit < d.length) (ht : Trimmed (d.take (limit - 1))) :
    (truncateLine limit d).length = limit := by
  unfold truncateLine
  rw [if_pos hgt, jsTrim_eq_of_trimmed ht]
  simp only [List.length_append, List.length_take, List.length_cons, List.length_nil]
  omega

/-! ## Claim C1: clamping in `optimizeLayout` -/

/-- C1: for every resume record and every template kind, every font size
and spacing value in the `LayoutConfig` returned by `optimizeLayout` lies
within its template's documented floor/ceiling range — name font within
[26, 40], title font within [15, 22], section-title font within [13, 17],
body font within [11, 14], small font within [10, 11], section spacing
within [16, 36], item spacing within [10, 22], line height within
[1.3, 1.6], container padding within [24, 40] — and any sidebar width
(present only for the modern template) lies within [180, 250], no matter
how extreme the input record is. -/
theorem optimizeLayout_clamped (d : ResumeData) (t : TemplateType) :
    26 ≤ (optimizeLayout d t).nameFontSize ∧ (optimizeLayout d t).nameFontSize ≤ 40 ∧
    15 ≤ (optimizeLayout d t).titleFontSize ∧ (optimizeLayout d t).titleFontSize ≤ 22 ∧
    13 ≤ (optimizeLayout d t).sectionTitleFontSize ∧
      (optimizeLayout d t).sectionTitleFontSize ≤ 17 ∧
    11 ≤ (optimizeLayout d t).bodyFontSize ∧ (optimizeLayout d t).bodyFontSize ≤ 14 ∧
    10 ≤ (optimizeLayout d t).smallFontSize ∧ (optimizeLayout d t).smallFontSize ≤ 11 ∧
    16 ≤ (optimizeLayout d t).sectionSpacing ∧ (optimizeLayout d t).sectionSpacing ≤ 36 ∧
    10 ≤ (optimizeLayout d t).itemSpacing ∧ (optimizeLayout d t).itemSpacing ≤ 22 ∧
    (13 : ℚ) / 10 ≤ (optimizeLayout d t).lineHeight ∧
      (optimizeLayout d t).lineHeight ≤ (16 : ℚ) / 10 ∧
    24 ≤ (optimizeLayout d t).containerPadding ∧ (optimizeLayout d t).containerPadding ≤ 40 ∧
    (optimizeLayout d t).sidebarWidth.all (fun w => 180 ≤ w && w ≤ 250) = true := by
  unfold optimizeLayout
  generalize (analyzeContent d).contentDensity = dens
  cases dens <;> cases t <;>
    simp only [densityAdjust, baseConfig, Option.all] <;>
    norm_num [max_def, min_def]

/-! ## Claim C7: density classification thresholds -/

/-- C7: `analyzeContent` classifies density from the estimated height
against the usable page height of 1059 px exactly as specified: strictly
above 110% is overflow, strictly above 85% is dense, strictly below 60% is
sparse, and everything else — including a height exactly equal to 85% of
usable height — is normal. -/
theorem analyzeContent_density_thresholds :
    (∀ d : ResumeData, (analyzeContent d).contentDensity
      = densitySpec ((analyzeContent d).estimatedHeight : ℚ)) ∧
    (∀ x : ℚ, x = (usableHeight : ℚ) * 0.85 → densitySpec x = Density.normal) := by
  constructor
  · intro d
    rfl
  · intro x hx
    subst hx
    norm_num [densitySpec, usableHeight]

/-- Witness for C7 at a concrete record and at the exact 85% boundary. -/
theorem analyzeContent_density_thresholds_witness :
    (analyzeContent emptyResume).contentDensity
      = densitySpec ((analyzeContent emptyResume).estimatedHeight : ℚ) ∧
    densitySpec ((usableHeight : ℚ) * 0.85) = Density.normal :=
  ⟨analyzeContent_density_thresholds.1 emptyResume,
    analyzeContent_density_thresholds.2 _ rfl⟩

/-! ## Claim C3: error handling -/

/-- C3: `preprocessResume` fails exactly when its input is absent; every
present input is silently defaulted (the fully absent raw object validates
to the fully defaulted record and preprocesses successfully), and the
degenerate-content case (no name, no title, no summary, no experience)
raises the warning diagnostic while still returning a usable record. -/
theorem preprocessResume_error_contract :
    (∀ i : Option RawResume, (∃ msg, preprocessResume i = Except.error msg) ↔ i = none) ∧
    validateResumeData emptyRaw = emptyResume ∧
    preprocessResume (some emptyRaw) = Except.ok (preprocessCore emptyRaw) ∧
    degenerateWarning (preprocessCore emptyRaw) = true := by
  refine ⟨?_, rfl, rfl, by decide⟩
  intro i
  cases i with
  | none =>
    exact ⟨fun _ => rfl, fun _ => ⟨"preprocessResume: input is required", rfl⟩⟩
  | some r =>
    constructor
    · rintro ⟨msg, hmsg⟩
      exact absurd hmsg (by simp [preprocessResume])
    · intro hcon
      exact absurd hcon (by simp)

/-- Witness for C3: the absent input errors, a present input does not. -/
theorem preprocessResume_error_contract_witness :
    (∃ msg, preprocessResume none = Except.error msg) ∧
    ¬∃ msg, preprocessResume (some emptyRaw) = Except.error msg :=
  ⟨(preprocessResume_error_contract.1 none).mpr rfl,
    fun hex => by simpa using (preprocessResume_error_contract.1 (some emptyRaw)).mp hex⟩

/-! ## Claim C10: sanitization filter on experience and education -/

/-- C10: before caps and overflow relocation, `preprocessResume` silently
drops every experience entry that has neither role nor company and every
education entry that has neither degree nor school; the output experience
list is exactly the filtered list capped and bullet-rewritten, so its
length is `min (filtered length) cap` — which can fall short of
`min (input length) cap` when entries were dropped. -/
theorem preprocess_sanitize_filter (r : RawResume) (out : ProcessedResume)
    (h : preprocessResume (some r) = Except.ok out) :
    out.experience =
      (((validateResumeData r).experience.filter keepExp).take
          (maxExpItems (compactModeOf (validateResumeData r)))).map
        (rewriteExp (maxBullets (compactModeOf (validateResumeData r)))
          (truncLimit (compactModeOf (validateResumeData r)))) ∧
    out.experience.length =
      min ((validateResumeData r).experience.filter keepExp).length
        (maxExpItems (compactModeOf (validateResumeData r))) ∧
    out.education =
      ((validateResumeData r).education.filter keepEdu).take
        (maxEduItems (compactModeOf (validateResumeData r))) ∧
    out.education.length =
      min ((validateResumeData r).education.filter keepEdu).length
        (maxEduItems (compactModeOf (validateResumeData r))) := by
  have hout : preprocessCore r = out := by
    simpa [preprocessResume] using h
  subst hout
  have hexp : (preprocessCore r).experience =
      (((validateResumeData r).experience.filter keepExp).take
          (maxExpItems (compactModeOf (validateResumeData r)))).map
        (rewriteExp (maxBullets (compactModeOf (validateResumeData r)))
          (truncLimit (compactModeOf (validateResumeData r)))) := rfl
  have hedu : (preprocessCore r).education =
      ((validateResumeData r).education.filter keepEdu).take
        (maxEduItems (compactModeOf (validateResumeData r))) := rfl
  refine ⟨hexp, ?_, hedu, ?_⟩
  · rw [hexp, List.length_map, List.length_take]
    exact Nat.min_comm _ _
  · rw [hedu, List.length_take]
    exact Nat.min_comm _ _

/-- Witness for C10: three experience entries of which one is blank, two
education entries of which one is blank; the output keeps two and one
respectively — strictly fewer than `min (input length) cap`. -/
theorem preprocess_sanitize_filter_witness :
    (preprocessCore c10Raw).experience.length =
      min ((validateResumeData c10Raw).experience.filter keepExp).length
        (maxExpItems (compactModeOf (validateResumeData c10Raw))) ∧
    (preprocessCore c10Raw).experience.length = 2 ∧
    2 < min (validateResumeData c10Raw).experience.length
        (maxExpItems (compactModeOf (validateResumeData c10Raw))) ∧
    (preprocessCore c10Raw).education.length = 1 :=
  ⟨(preprocess_sanitize_filter c10Raw _ rfl).2.1, by decide, by decide, by decide⟩

/-! ## Claim C5: normalization of the simple lists -/

/-- C5 counterexample: certifications are not de-duplicated — an input
with two identical certification entries keeps both of them (and their
cap is 20 in both modes, not a compact-dependent one). -/
theorem preprocess_cert_not_dedup :
    preprocessResume (some c5Raw) = Except.ok (preprocessCore c5Raw) ∧
    (preprocessCore c5Raw).certifications = [⟨['A'], ['1']⟩, ⟨['A'], ['1']⟩] ∧
    ¬(preprocessCore c5Raw).certifications.Nodup :=
  ⟨rfl, by decide, by decide⟩

/-- C5 (amended): after preprocessing, the skills, soft-skills and
languages lists are trimmed, duplicate-free and capped with caps that
differ between compact and non-compact mode (12/30, 6/12, 3/8);
certifications are normalized (name and year trimmed) and capped at 20 in
both modes, but are not de-duplicated. -/
theorem preprocess_list_normalization (r : RawResume) (out : ProcessedResume)
    (h : preprocessResume (some r) = Except.ok out) :
    (out.skills.Nodup ∧ (∀ s ∈ out.skills, Trimmed s ∧ s ≠ []) ∧
      out.skills.length ≤ (if compactModeOf (validateResumeData r) then 12 else 30)) ∧
    (out.softSkills.Nodup ∧ (∀ s ∈ out.softSkills, Trimmed s ∧ s ≠ []) ∧
      out.softSkills.length ≤ (if compactModeOf (validateResumeData r) then 6 else 12)) ∧
    (out.languages.Nodup ∧ (∀ s ∈ out.languages, Trimmed s ∧ s ≠ []) ∧
      out.languages.length ≤ (if compactModeOf (validateResumeData r) then 3 else 8)) ∧
    (out.certifications =
        ((validateResumeData r).certifications.map
          (fun c => ⟨jsTrim c.name, jsTrim c.year⟩)).take 20 ∧
      out.certifications.length ≤ 20) := by
  have hout : preprocessCore r = out := by
    simpa [preprocessResume] using h
  subst hout
  refine ⟨⟨?_, ?_, ?_⟩, ⟨?_, ?_, ?_⟩, ⟨?_, ?_, ?_⟩, rfl, ?_⟩
  · exact List.Nodup.sublist (List.take_sublist _ _) (uniqStrings_nodup _)
  · exact fun s hs => uniqStrings_mem ((List.take_sublist _ _).subset hs)
  · show ((uniqStrings (validateResumeData r).skills).take _).length ≤ _
    rw [List.length_take]
    exact min_le_left _ _
  · exact List.Nodup.sublist (List.take_sublist _ _) (uniqStrings_nodup _)
  · exact fun s hs => uniqStrings_mem ((List.take_sublist _ _).subset hs)
  · show ((uniqStrings (validateResumeData r).softSkills).take _).length ≤ _
    rw [List.length_take]
    exact min_le_left _ _
  · exact List.Nodup.sublist (List.take_sublist _ _) (uniqStrings_nodup _)
  · exact fun s hs => uniqStrings_mem ((List.take_sublist _ _).subset hs)
  · show ((uniqStrings (validateResumeData r).languages).take _).length ≤ _
    rw [List.length_take]
    exact min_le_left _ _
  · show (((validateResumeData r).certifications.map _).take 20).length ≤ 20
    rw [List.length_take]
    exact min_le_left _ _

/-- Witness for C5 (amended): duplicate and untrimmed skills collapse to
their trimmed first occurrences, and are duplicate-free. -/
theorem preprocess_list_normalization_witness :
    (preprocessCore c5SkillsRaw).skills = ["Go".data, "Rust".data] ∧
    (preprocessCore c5SkillsRaw).skills.Nodup ∧
    (preprocessCore c5SkillsRaw).certifications.length ≤ 20 :=
  ⟨by decide, (preprocess_list_normalization c5SkillsRaw _ rfl).1.1,
    (preprocess_list_normalization c5SkillsRaw _ rfl).2.2.2.2⟩

/-! ## Claim C6: achievement combination, de-duplication, cap -/

/-- C6: synthesized overflow achievement strings are appended after (not
replacing) the pre-existing achievements, the combined list is
de-duplicated by exact string equality with first occurrences kept in
order (the output is an order-preserving sublist of
`pre-existing ++ synthesized`, with no duplicates), and the result is
capped at 6 entries in compact mode and 12 otherwise. -/
theorem preprocess_achievements_combine (r : RawResume) (out : ProcessedResume)
    (h : preprocessResume (some r) = Except.ok out) :
    out.achivements =
      ((setDedup ((validateResumeData r).achivements.map jsTrim
          ++ (expExtras (compactModeOf (validateResumeData r))
                ((validateResumeData r).experience.filter keepExp)
              ++ eduExtras (compactModeOf (validateResumeData r))
                ((validateResumeData r).education.filter keepEdu)))).filter
        (fun s => s ≠ [])).take (if compactModeOf (validateResumeData r) then 6 else 12) ∧
    out.achivements.Nodup ∧
    out.achivements.Sublist ((validateResumeData r).achivements.map jsTrim
      ++ (expExtras (compactModeOf (validateResumeData r))
            ((validateResumeData r).experience.filter keepExp)
          ++ eduExtras (compactModeOf (validateResumeData r))
            ((validateResumeData r).education.filter keepEdu))) ∧
    out.achivements.length ≤ (if compactModeOf (validateResumeData r) then 6 else 12) := by
  have hout : preprocessCore r = out := by
    simpa [preprocessResume] using h
  subst hout
  have hach : (preprocessCore r).achivements =
      ((setDedup ((validateResumeData r).achivements.map jsTrim
          ++ (expExtras (compactModeOf (validateResumeData r))
                ((validateResumeData r).experience.filter keepExp)
              ++ eduExtras (compactModeOf (validateResumeData r))
                ((validateResumeData r).education.filter keepEdu)))).filter
        (fun s => s ≠ [])).take
        (if compactModeOf (validateResumeData r) then 6 else 12) := rfl
  refine ⟨hach, ?_, ?_, ?_⟩
  · rw [hach]
    exact List.Nodup.sublist (List.take_sublist _ _)
      (List.Nodup.filter _ (setDedup_nodup _))
  · rw [hach]
    exact ((List.take_sublist _ _).trans (List.filter_sublist _)).trans (setDedup_sublist _)
  · rw [hach, List.length_take]
    exact min_le_left _ _

/-- Witness for C6: the specification's example — achievements
`["Led team", "Led team", "Shipped X"]` come out with each distinct string
exactly once, in first-occurrence order, and duplicate-free. -/
theorem preprocess_achievements_combine_witness :
    (preprocessCore c6Raw).achivements = ["Led team".data, "Shipped X".data] ∧
    (preprocessCore c6Raw).achivements.Nodup :=
  ⟨by decide, (preprocess_achievements_combine c6Raw _ rfl).2.1⟩

/-! ## Structure of the synthesized overflow strings -/

theorem mem_dropWhile_ws {c : Char} (hc : wsChar c = false) :
    ∀ {l : Str}, c ∈ l → c ∈ List.dropWhile wsChar l := by
  intro l
  induction l with
  | nil => simp
  | cons a t ih =>
    intro hmem
    rw [List.dropWhile_cons]
    by_cases ha : wsChar a = true
    · rw [if_pos ha]
      apply ih
      rcases List.mem_cons.mp hmem with rfl | hmem'
      · rw [hc] at ha
        exact absurd ha (by simp)
      · exact hmem'
    · rw [if_neg ha]
      exact hmem

theorem jsTrim_ne_nil {l : Str} {c : Char} (hmem : c ∈ l) (hc : wsChar c = false) :
    jsTrim l ≠ [] := by
  intro h0
  unfold jsTrim at h0
  rw [List.rdropWhile_eq_nil_iff] at h0
  have := h0 c (mem_dropWhile_ws hc hmem)
  rw [hc] at this
  exact absurd this (by simp)

theorem joinSep_cons (sep x : Str) (t : List Str) :
    joinSep sep (x :: t) = x ∨ joinSep sep (x :: t) = x ++ sep ++ joinSep sep t := by
  cases t
  · exact Or.inl rfl
  · exact Or.inr rfl

theorem isPrefix_joinSep_cons (sep x : Str) (t : List Str) :
    x <+: joinSep sep (x :: t) := by
  cases t with
  | nil => exact List.prefix_rfl
  | cons y u =>
    refine ⟨sep ++ joinSep sep (y :: u), ?_⟩
    show x ++ (sep ++ joinSep sep (y :: u)) = x ++ sep ++ joinSep sep (y :: u)
    rw [List.append_assoc]

/-- Three-part append with trimmed non-empty ends is trimmed, whatever
sits in the middle. -/
theorem trimmed_append_three {x m y : Str} (hx : Trimmed x) (hy : Trimmed y)
    (hx0 : x ≠ []) (hy0 : y ≠ []) : Trimmed (x ++ m ++ y) := by
  apply trimmed_of
  · intro c hc
    rw [List.append_assoc, List.head?_append_of_ne_nil _ hx0] at hc
    exact hx.head_ws hc
  · intro c hc
    rw [List.getLast?_append] at hc
    rcases hy' : y.getLast? with _ | d
    · exact absurd (List.getLast?_eq_getLast y hy0 ▸ hy') (by simp)
    · rw [hy'] at hc
      simp only [Option.or_some, Option.some.injEq] at hc
      exact hy.getLast_ws (hc ▸ hy')

/-- Trimming ignores one appended whitespace character. -/
theorem jsTrim_concat_ws {x : Str} {c : Char} (hc : wsChar c = true) :
    jsTrim (x ++ [c]) = jsTrim x := by
  unfold jsTrim
  rw [List.dropWhile_append]
  by_cases h : (List.dropWhile wsChar x).isEmpty = true
  · rw [if_pos h]
    rw [List.isEmpty_iff] at h
    rw [h]
    simp [List.dropWhile_cons, hc, List.rdropWhile]
  · rw [if_neg h]
    exact List.rdropWhile_concat_pos wsChar _ c hc

theorem expOverflowEntry_ne_nil (maxB : Nat) (e : ExpEntry) :
    expOverflowEntry maxB e ≠ [] := by
  unfold expOverflowEntry
  have htne : jsTrim (e.role ++ [' ', '—', ' '] ++ e.company) ≠ [] :=
    jsTrim_ne_nil (c := '—') (by simp) (by decide)
  apply joinSep_ne_nil
  · intro h0
    have hmem : jsTrim (e.role ++ [' ', '—', ' '] ++ e.company) ∈
        ((jsTrim (e.role ++ [' ', '—', ' '] ++ e.company)
          :: (e.description.take maxB).map jsTrim).filter (fun s => s ≠ [])) := by
      rw [List.mem_filter]
      exact ⟨by simp, by simpa using htne⟩
    rw [h0] at hmem
    exact absurd hmem (by simp)
  · intro p hp
    simpa using (List.mem_filter.mp hp).2

theorem expOverflowEntry_contains {e : ExpEntry} (maxB : Nat)
    (hr : Trimmed e.role) (hr0 : e.role ≠ []) (hc : Trimmed e.company) (hc0 : e.company ≠ []) :
    e.role <+: expOverflowEntry maxB e ∧ e.company <:+: expOverflowEntry maxB e := by
  simp only [expOverflowEntry]
  have htitle : jsTrim (e.role ++ [' ', '—', ' '] ++ e.company)
      = e.role ++ [' ', '—', ' '] ++ e.company :=
    trimmed_append_three hr hc hr0 hc0
  have htne : e.role ++ [' ', '—', ' '] ++ e.company ≠ [] := by simp [hr0]
  rw [htitle, List.filter_cons, if_pos (by simp [htne])]
  have hpre : (e.role ++ [' ', '—', ' '] ++ e.company) <+:
      joinSep [' ', '•', ' '] ((e.role ++ [' ', '—', ' '] ++ e.company)
        :: ((e.description.take maxB).map jsTrim).filter (fun s => s ≠ [])) :=
    isPrefix_joinSep_cons _ _ _
  constructor
  · exact List.IsPrefix.trans ⟨[' ', '—', ' '] ++ e.company, by simp⟩ hpre
  · exact List.IsInfix.trans (List.suffix_append _ _).isInfix hpre.isInfix

theorem eduOverflowEntry_ne_nil (e : EduEntry) : eduOverflowEntry e ≠ [] := by
  unfold eduOverflowEntry
  exact jsTrim_ne_nil (c := '—') (by simp) (by decide)

theorem eduOverflowEntry_contains {e : EduEntry}
    (hd : Trimmed e.degree) (hd0 : e.degree ≠ [])
    (hs : Trimmed e.school) (hs0 : e.school ≠ []) :
    e.degree <+: eduOverflowEntry e ∧ e.school <:+: eduOverflowEntry e := by
  unfold eduOverflowEntry
  by_cases hy : jsTrim e.year = []
  · rw [hy, List.append_nil, jsTrim_concat_ws (by decide),
      jsTrim_eq_of_trimmed (trimmed_append_three hd hs hd0 hs0)]
    constructor
    · exact ⟨[' ', '—', ' '] ++ e.school, by simp⟩
    · exact (List.suffix_append _ _).isInfix
  · have heq : e.degree ++ [' ', '—', ' '] ++ e.school ++ [' '] ++ jsTrim e.year
        = e.degree ++ ([' ', '—', ' '] ++ e.school ++ [' ']) ++ jsTrim e.year := by
      simp [List.append_assoc]
    rw [heq, jsTrim_eq_of_trimmed
      (trimmed_append_three hd (trimmed_jsTrim e.year) hd0 hy)]
    constructor
    · exact ⟨([' ', '—', ' '] ++ e.school ++ [' ']) ++ jsTrim e.year, by simp⟩
    · exact ⟨e.degree ++ [' ', '—', ' '], [' '] ++ jsTrim e.year, by simp⟩

/-! ## Claim C2: overflow relocation -/

/-- C2 counterexample: eight experience entries under the non-compact cap
of 6, together with twelve distinct pre-existing achievements.  The output
experience list does have six entries, but the non-compact achievements
cap of 12 is filled by the pre-existing achievements, so the two
synthesized strings are dropped: no output achievement contains the role
text of the excess entries at all. -/
theorem preprocess_overflow_relocation_counterexample :
    preprocessResume (some c2Raw) = Except.ok (preprocessCore c2Raw) ∧
    compactModeOf (validateResumeData c2Raw) = false ∧
    ((validateResumeData c2Raw).experience.filter keepExp).length = 8 ∧
    (preprocessCore c2Raw).experience.length = 6 ∧
    (preprocessCore c2Raw).achivements.length = 12 ∧
    ∀ s ∈ (preprocessCore c2Raw).achivements,
      ¬(("x7".data) <:+: s) ∧ ¬(("x8".data) <:+: s) :=
  ⟨rfl, by decide, by decide, by decide, by decide, by decide⟩

/-- C2 (amended): for an input processed in non-compact mode, the output
experience list has exactly `min (sanitized length) 6` entries — so 8
entries come out as exactly 6 — and each excess experience entry is
converted into one synthesized achievement string (role — company •
bullets), while each excess education entry (beyond the education cap of
6) is likewise converted into one "degree — school year" achievement
string; each such string appears in the output achievements provided the
combined de-duplicated achievements list does not exceed the cap of 12
(otherwise trailing entries are cut), and it contains the entry's
role/degree text as a prefix and its company/school text as a substring
whenever those fields are non-empty trimmed strings. -/
theorem preprocess_overflow_relocation (r : RawResume) (out : ProcessedResume)
    (h : preprocessResume (some r) = Except.ok out)
    (hmode : compactModeOf (validateResumeData r) = false)
    (hcap : ((setDedup ((validateResumeData r).achivements.map jsTrim
        ++ (expExtras false ((validateResumeData r).experience.filter keepExp)
            ++ eduExtras false ((validateResumeData r).education.filter keepEdu)))).filter
        (fun s => s ≠ [])).length ≤ 12) :
    out.experience.length
      = min ((validateResumeData r).experience.filter keepExp).length 6 ∧
    (∀ e ∈ ((validateResumeData r).experience.filter keepExp).drop 6,
      expOverflowEntry 4 e ∈ out.achivements ∧
      (Trimmed e.role → e.role ≠ [] → Trimmed e.company → e.company ≠ [] →
        e.role <+: expOverflowEntry 4 e ∧ e.company <:+: expOverflowEntry 4 e)) ∧
    (∀ e ∈ ((validateResumeData r).education.filter keepEdu).drop 6,
      eduOverflowEntry e ∈ out.achivements ∧
      (Trimmed e.degree → e.degree ≠ [] → Trimmed e.school → e.school ≠ [] →
        e.degree <+: eduOverflowEntry e ∧ e.school <:+: eduOverflowEntry e)) := by
  have hout : preprocessCore r = out := by
    simpa [preprocessResume] using h
  subst hout
  have hach : (preprocessCore r).achivements =
      ((setDedup ((validateResumeData r).achivements.map jsTrim
          ++ (expExtras (compactModeOf (validateResumeData r))
                ((validateResumeData r).experience.filter keepExp)
              ++ eduExtras (compactModeOf (validateResumeData r))
                ((validateResumeData r).education.filter keepEdu)))).filter
        (fun s => s ≠ [])).take
        (if compactModeOf (validateResumeData r) then 6 else 12) := rfl
  refine ⟨?_, ?_, ?_⟩
  · show ((((validateResumeData r).experience.filter keepExp).take
        (maxExpItems (compactModeOf (validateResumeData r)))).map
        (rewriteExp (maxBullets (compactModeOf (validateResumeData r)))
          (truncLimit (compactModeOf (validateResumeData r))))).length = _
    rw [List.length_map, List.length_take, hmode]
    exact Nat.min_comm _ _
  · intro e he
    refine ⟨?_, fun hr hr0 hc hc0 => expOverflowEntry_contains 4 hr hr0 hc hc0⟩
    rw [hach, hmode, if_neg (by simp : ¬(false = true)),
      List.take_of_length_le hcap, List.mem_filter, mem_setDedup]
    refine ⟨?_, decide_eq_true (expOverflowEntry_ne_nil 4 e)⟩
    apply List.mem_append.mpr
    right
    apply List.mem_append.mpr
    left
    unfold expExtras
    rw [List.mem_filter]
    refine ⟨?_, decide_eq_true (expOverflowEntry_ne_nil 4 e)⟩
    apply List.mem_map.mpr
    exact ⟨e, he, rfl⟩
  · intro e he
    refine ⟨?_, fun hd hd0 hs hs0 => eduOverflowEntry_contains hd hd0 hs hs0⟩
    rw [hach, hmode, if_neg (by simp : ¬(false = true)),
      List.take_of_length_le hcap, List.mem_filter, mem_setDedup]
    refine ⟨?_, decide_eq_true (eduOverflowEntry_ne_nil e)⟩
    apply List.mem_append.mpr
    right
    apply List.mem_append.mpr
    right
    unfold eduExtras
    rw [List.mem_filter]
    refine ⟨?_, decide_eq_true (eduOverflowEntry_ne_nil e)⟩
    apply List.mem_map.mpr
    exact ⟨e, he, rfl⟩

/-- Witness for C2 (amended), exercising both relocation clauses: a
record with eight experience entries comes out with exactly six, the
seventh entry's synthesized string appearing among its achievements with
role as prefix and company as substring; and a record with seven
education entries relocates the seventh as a "degree — school year"
string with degree as prefix and school as substring. -/
theorem preprocess_overflow_relocation_witness :
    (preprocessCore c2SmallRaw).experience.length = 6 ∧
    expOverflowEntry 4 (mkExp ("x7".data) ("y7".data)) ∈ (preprocessCore c2SmallRaw).achivements ∧
    ("x7".data) <+: expOverflowEntry 4 (mkExp ("x7".data) ("y7".data)) ∧
    ("y7".data) <:+: expOverflowEntry 4 (mkExp ("x7".data) ("y7".data)) ∧
    eduOverflowEntry ⟨"BS7".data, "U7".data, "2007".data⟩
      ∈ (preprocessCore c2EduRaw).achivements ∧
    ("BS7".data) <+: eduOverflowEntry ⟨"BS7".data, "U7".data, "2007".data⟩ ∧
    ("U7".data) <:+: eduOverflowEntry ⟨"BS7".data, "U7".data, "2007".data⟩ := by
  have h := preprocess_overflow_relocation c2SmallRaw _ rfl (by decide) (by decide)
  have h7 := h.2.1 (mkExp ("x7".data) ("y7".data)) (by decide)
  have h7c := h7.2 (by rfl) (by decide) (by rfl) (by decide)
  have g := preprocess_overflow_relocation c2EduRaw _ rfl (by decide) (by decide)
  have g7 := g.2.2 ⟨"BS7".data, "U7".data, "2007".data⟩ (by decide)
  have g7c := g7.2 (by rfl) (by decide) (by rfl) (by decide)
  exact ⟨h.1.trans (by decide), h7.1, h7c.1, h7c.2, g7.1, g7c.1, g7c.2⟩

/-! ## Claim C4: per-line truncation -/

theorem truncLimit_pos (m : Bool) : 0 < truncLimit m := by
  cases m <;> decide

/-- C4 counterexample: a 300-character bullet whose 119-character prefix
ends in a space, processed in compact mode (limit 120).  The source trims
the sliced prefix before appending the ellipsis, so the resulting string
has 119 characters, not the claimed 120. -/
theorem preprocess_truncation_counterexample :
    preprocessResume (some c4Raw) = Except.ok c4Out ∧
    c4Out.layoutHints.truncateCharPerLine = 120 ∧
    c4Bullet.length = 300 ∧
    c4Out.experience.head?.map ExpEntry.description = some [c4Truncated] ∧
    c4Truncated.length = 119 :=
  ⟨rfl, by decide, by decide, by decide, by decide⟩

/-- C4 (amended): every kept experience bullet respects the per-line
limit and comes out whitespace-trimmed; an over-limit string becomes its
trimmed `limit − 1`-character prefix plus an ellipsis marker — exactly
`limit` characters when that prefix carries no surrounding whitespace
(e.g. a 300-character bullet of letters under the compact limit 120
becomes 119 characters plus the ellipsis), and at most `limit` characters
in general; strings at or under the limit pass the truncation unchanged
(they are still whitespace-trimmed by the preceding normalization). -/
theorem preprocess_truncation (r : RawResume) (out : ProcessedResume)
    (h : preprocessResume (some r) = Except.ok out) :
    (∀ e ∈ out.experience, ∀ b ∈ e.description,
      b.length ≤ truncLimit (compactModeOf (validateResumeData r)) ∧ Trimmed b) ∧
    (∀ (limit : Nat) (d : Str), d.length ≤ limit → truncateLine limit d = d) ∧
    (∀ (limit : Nat) (d : Str), 0 < limit → limit < d.length →
      truncateLine limit d = jsTrim (d.take (limit - 1)) ++ ['…'] ∧
      (truncateLine limit d).length ≤ limit ∧
      (Trimmed (d.take (limit - 1)) → (truncateLine limit d).length = limit)) := by
  have hout : preprocessCore r = out := by
    simpa [preprocessResume] using h
  subst hout
  refine ⟨?_, ?_, ?_⟩
  · intro e he b hb
    have he' : e ∈ (((validateResumeData r).experience.filter keepExp).take
        (maxExpItems (compactModeOf (validateResumeData r)))).map
        (rewriteExp (maxBullets (compactModeOf (validateResumeData r)))
          (truncLimit (compactModeOf (validateResumeData r)))) := he
    obtain ⟨e0, _, rfl⟩ := List.mem_map.mp he'
    have hb' : b ∈ ((e0.description.take
        (maxBullets (compactModeOf (validateResumeData r)))).map jsTrim).map
        (truncateLine (truncLimit (compactModeOf (validateResumeData r)))) := hb
    obtain ⟨d0, hd0, rfl⟩ := List.mem_map.mp hb'
    obtain ⟨d1, hd1, rfl⟩ := List.mem_map.mp hd0
    exact ⟨truncateLine_length_le (truncLimit_pos _) _,
      truncateLine_trimmed (trimmed_jsTrim d1)⟩
  · exact fun limit d hd => truncateLine_of_le hd
  · intro limit d hl hgt
    refine ⟨?_, truncateLine_length_le hl d, fun ht => truncateLine_length_eq hl hgt ht⟩
    unfold truncateLine
    rw [if_pos hgt]

/-- Witness for C4 (amended): in compact mode, a 300-character bullet of
letters truncates to exactly 120 characters (119 letters plus the
ellipsis), and every output bullet of the record respects the limit. -/
theorem preprocess_truncation_witness :
    (truncateLine 120 c4CleanBullet).length = 120 ∧
    truncateLine 120 c4CleanBullet = List.replicate 119 'a' ++ ['…'] ∧
    (preprocessCore c4CleanRaw).layoutHints.truncateCharPerLine = 120 ∧
    ∀ e ∈ (preprocessCore c4CleanRaw).experience, ∀ b ∈ e.description, b.length ≤ 120 := by
  have h := preprocess_truncation c4CleanRaw _ rfl
  have h3 := (h.2.2 120 c4CleanBullet (by decide) (by decide)).2.2 (by decide)
  refine ⟨h3, by decide, by decide, ?_⟩
  intro e he b hb
  have hbl := (h.1 e he b hb).1
  rwa [show truncLimit (compactModeOf (validateResumeData c4CleanRaw)) = 120 from by decide]
    at hbl

/-! ## Stability lemmas for the content transformation -/

theorem map_eq_self_of {α : Type} {f : α → α} :
    ∀ {l : List α}, (∀ x ∈ l, f x = x) → l.map f = l := by
  intro l
  induction l with
  | nil => intro _; rfl
  | cons a t ih =>
    intro h
    simp only [List.map_cons, h a (by simp), List.cons.injEq, true_and]
    exact ih fun x hx => h x (by simp [hx])

theorem keepExp_rewriteExp (maxB lim : Nat) (e : ExpEntry) :
    keepExp (rewriteExp maxB lim e) = keepExp e := rfl

theorem rewriteExp_idem {lim : Nat} (hl : 0 < lim) (maxB : Nat) (e : ExpEntry) :
    rewriteExp maxB lim (rewriteExp maxB lim e) = rewriteExp maxB lim e := by
  have hpipe : ∀ D : List Str, (∀ x ∈ D, Trimmed x ∧ x.length ≤ lim) → D.length ≤ maxB →
      ((D.take maxB).map jsTrim).map (truncateLine lim) = D := by
    intro D hD hlen
    rw [List.take_of_length_le hlen, map_eq_self_of (fun x hx => (hD x hx).1),
      map_eq_self_of (fun x hx => truncateLine_of_le (hD x hx).2)]
  unfold rewriteExp
  simp only [ExpEntry.mk.injEq, true_and]
  apply hpipe
  · intro x hx
    obtain ⟨d0, hd0, rfl⟩ := List.mem_map.mp hx
    obtain ⟨d1, _, rfl⟩ := List.mem_map.mp hd0
    exact ⟨truncateLine_trimmed (trimmed_jsTrim d1), truncateLine_length_le hl _⟩
  · rw [List.length_map, List.length_map, List.length_take]
    exact min_le_left _ _

theorem trimmed_expOverflowEntry (maxB : Nat) (e : ExpEntry) :
    Trimmed (expOverflowEntry maxB e) := by
  simp only [expOverflowEntry]
  apply trimmed_joinSep
  intro p hp
  rw [List.mem_filter] at hp
  obtain ⟨hmem, hne⟩ := hp
  refine ⟨?_, by simpa using hne⟩
  rcases List.mem_cons.mp hmem with rfl | hmem'
  · exact trimmed_jsTrim _
  · obtain ⟨x, _, rfl⟩ := List.mem_map.mp hmem'
    exact trimmed_jsTrim x

theorem trimmed_eduOverflowEntry (e : EduEntry) : Trimmed (eduOverflowEntry e) :=
  trimmed_jsTrim _

/-- Every string in the combined, de-duplicated, capped achievements list
is trimmed and non-empty. -/
theorem mem_achCombined {a : Str} {ach : List Str} {ex : List ExpEntry}
    {ed : List EduEntry} {m : Bool} {cap : Nat}
    (ha : a ∈ ((setDedup (ach.map jsTrim ++ (expExtras m ex ++ eduExtras m ed))).filter
      (fun s => s ≠ [])).take cap) :
    Trimmed a ∧ a ≠ [] := by
  have h1 := (List.take_sublist _ _).subset ha
  rw [List.mem_filter, mem_setDedup] at h1
  obtain ⟨hmem, hne⟩ := h1
  refine ⟨?_, by simpa using hne⟩
  rcases List.mem_append.mp hmem with hl | hr
  · obtain ⟨x, _, rfl⟩ := List.mem_map.mp hl
    exact trimmed_jsTrim x
  · rcases List.mem_append.mp hr with he | he
    · obtain ⟨x, _, rfl⟩ := List.mem_map.mp (List.mem_filter.mp he).1
      exact trimmed_expOverflowEntry _ x
    · obtain ⟨x, _, rfl⟩ := List.mem_map.mp (List.mem_filter.mp he).1
      exact trimmed_eduOverflowEntry x

theorem uniqTake_idem (k : Nat) (l : List Str) :
    (uniqStrings ((uniqStrings l).take k)).take k = (uniqStrings l).take k := by
  rw [uniqStrings_eq_self
      (List.Nodup.sublist (List.take_sublist _ _) (uniqStrings_nodup _))
      (fun s hs => uniqStrings_mem ((List.take_sublist _ _).subset hs)),
    List.take_take, Nat.min_self]

/-- The content transformation is idempotent at a fixed compact-mode
flag: all caps, filters, trims, truncations and de-duplications are
stable fixed points. -/
theorem dataTransform_idem (m : Bool) (d : ResumeData) :
    dataTransform m (dataTransform m d) = dataTransform m d := by
  obtain ⟨dn, dt, dp, dc, ds, dexp, dedu, dcert, dach, dvol, dsk, dss, dlang, dint⟩ := d
  have hEkeep : (((dexp.filter keepExp).take (maxExpItems m)).map
      (rewriteExp (maxBullets m) (truncLimit m))).filter keepExp
      = ((dexp.filter keepExp).take (maxExpItems m)).map
        (rewriteExp (maxBullets m) (truncLimit m)) := by
    apply List.filter_eq_self.mpr
    intro e he
    obtain ⟨e0, he0, rfl⟩ := List.mem_map.mp he
    rw [keepExp_rewriteExp]
    exact List.of_mem_filter ((List.take_sublist _ _).subset he0)
  have hElen : (((dexp.filter keepExp).take (maxExpItems m)).map
      (rewriteExp (maxBullets m) (truncLimit m))).length ≤ maxExpItems m := by
    rw [List.length_map, List.length_take]
    exact min_le_left _ _
  have hUkeep : (((dedu.filter keepEdu).take (maxEduItems m)).filter keepEdu)
      = (dedu.filter keepEdu).take (maxEduItems m) := by
    apply List.filter_eq_self.mpr
    intro e he
    exact List.of_mem_filter ((List.take_sublist _ _).subset he)
  have hUlen : ((dedu.filter keepEdu).take (maxEduItems m)).length ≤ maxEduItems m := by
    rw [List.length_take]
    exact min_le_left _ _
  have hexNil : expExtras m ((((dexp.filter keepExp).take (maxExpItems m)).map
      (rewriteExp (maxBullets m) (truncLimit m))).filter keepExp) = [] := by
    rw [hEkeep]
    unfold expExtras
    rw [List.drop_eq_nil_of_le hElen]
    rfl
  have heduNil : eduExtras m ((((dedu.filter keepEdu).take (maxEduItems m)).filter keepEdu))
      = [] := by
    rw [hUkeep]
    unfold eduExtras
    rw [List.drop_eq_nil_of_le hUlen]
    rfl
  simp only [dataTransform, ResumeData.mk.injEq, true_and, and_true]
  refine ⟨?_, ?_, ?_, ?_, ?_, ?_, ?_⟩
  · -- experience
    rw [hEkeep, List.take_of_length_le hElen]
    apply map_eq_self_of
    intro e he
    obtain ⟨e0, _, rfl⟩ := List.mem_map.mp he
    exact rewriteExp_idem (truncLimit_pos m) _ e0
  · -- education
    rw [hUkeep]
    rw [List.take_take, Nat.min_self]
  · -- certifications
    have hClen : ((dcert.map (fun c => CertEntry.mk (jsTrim c.name) (jsTrim c.year))).take
        20).length ≤ 20 := by
      rw [List.length_take]
      exact min_le_left _ _
    rw [map_eq_self_of, List.take_of_length_le hClen]
    intro c hc
    obtain ⟨c0, _, rfl⟩ := List.mem_map.mp ((List.take_sublist _ _).subset hc)
    simp only [CertEntry.mk.injEq]
    exact ⟨jsTrim_idem c0.name, jsTrim_idem c0.year⟩
  · -- achievements
    rw [hexNil, heduNil]
    have hA : ∀ a ∈ ((setDedup (dach.map jsTrim
        ++ (expExtras m (dexp.filter keepExp) ++ eduExtras m (dedu.filter keepEdu)))).filter
        (fun s => s ≠ [])).take (if m then 6 else 12), Trimmed a ∧ a ≠ [] :=
      fun a ha => mem_achCombined ha
    have hmap : (((setDedup (dach.map jsTrim
        ++ (expExtras m (dexp.filter keepExp) ++ eduExtras m (dedu.filter keepEdu)))).filter
        (fun s => s ≠ [])).take (if m then 6 else 12)).map jsTrim
        = ((setDedup (dach.map jsTrim
        ++ (expExtras m (dexp.filter keepExp) ++ eduExtras m (dedu.filter keepEdu)))).filter
        (fun s => s ≠ [])).take (if m then 6 else 12) :=
      map_eq_self_of fun a ha => (hA a ha).1
    rw [hmap]
    simp only [List.append_nil]
    rw [setDedup_eq_self (List.Nodup.sublist (List.take_sublist _ _)
        (List.Nodup.filter _ (setDedup_nodup _))),
      List.filter_eq_self.mpr (fun a ha => by simpa using (hA a ha).2),
      List.take_take, Nat.min_self]
  · -- skills
    exact uniqTake_idem _ dsk
  · -- softSkills
    exact uniqTake_idem _ dss
  · -- languages
    exact uniqTake_idem _ dlang

/-! ## Claim C8: idempotence of preprocessing -/

/-- C8 counterexample: a borderline record whose character-count metric is
exactly 2200.  The first pass is non-compact and keeps 6 of 7 experience
entries; relocating the seventh into achievements makes the re-joined text
longer, so the second pass counts 2208 characters, flips to compact mode,
and cuts the experience list from 6 entries to 3 — re-running the
preprocessor on its own output changes list lengths. -/
theorem preprocess_idempotence_counterexample :
    preprocessResume (some c8Raw) = Except.ok c8Out1 ∧
    preprocessResume (some (toRaw c8Out1)) = Except.ok c8Out2 ∧
    compactModeOf (validateResumeData c8Raw) = false ∧
    compactModeOf (validateResumeData (toRaw c8Out1)) = true ∧
    c8Out1.experience.length = 6 ∧
    c8Out2.experience.length = 3 :=
  ⟨rfl, rfl, by decide, by decide, by decide, by decide⟩

/-- C8 (amended): re-running `preprocessResume` on the record it returned
reproduces that record's content exactly — every list field and every
bullet string unchanged — provided the second pass's compact-mode decision
matches the first (overflow relocation can push a borderline record's
character count across the compact threshold, which is the only way a
second pass can change shapes). -/
theorem preprocess_idempotent_modeStable (r : RawResume) (out1 out2 : ProcessedResume)
    (h1 : preprocessResume (some r) = Except.ok out1)
    (h2 : preprocessResume (some (toRaw out1)) = Except.ok out2)
    (hmode : compactModeOf (validateResumeData (toRaw out1))
      = compactModeOf (validateResumeData r)) :
    out2.toResumeData = out1.toResumeData ∧
    out2.experience.length = out1.experience.length ∧
    out2.experience.map (fun e => e.description.map List.length)
      = out1.experience.map (fun e => e.description.map List.length) ∧
    out2.achivements.length = out1.achivements.length ∧
    out2.skills.length = out1.skills.length := by
  have ho1 : preprocessCore r = out1 := by
    simpa [preprocessResume] using h1
  have ho2 : preprocessCore (toRaw out1) = out2 := by
    simpa [preprocessResume] using h2
  subst ho1
  subst ho2
  have hval : validateResumeData (toRaw (preprocessCore r))
      = (preprocessCore r).toResumeData := rfl
  have key : (preprocessCore (toRaw (preprocessCore r))).toResumeData
      = (preprocessCore r).toResumeData := by
    show dataTransform (compactModeOf (validateResumeData (toRaw (preprocessCore r))))
        (validateResumeData (toRaw (preprocessCore r)))
      = (preprocessCore r).toResumeData
    rw [hmode, hval]
    show dataTransform (compactModeOf (validateResumeData r))
        (dataTransform (compactModeOf (validateResumeData r)) (validateResumeData r))
      = dataTransform (compactModeOf (validateResumeData r)) (validateResumeData r)
    exact dataTransform_idem _ _
  have hexp : (preprocessCore (toRaw (preprocessCore r))).experience
      = (preprocessCore r).experience := congrArg ResumeData.experience key
  refine ⟨key, congrArg List.length hexp, congrArg _ hexp, ?_, ?_⟩
  · exact congrArg List.length (congrArg ResumeData.achivements key)
  · exact congrArg List.length (congrArg ResumeData.skills key)

/-- Witness for C8 (amended): on the spec's de-duplication example record
the compact-mode decision is stable, and the second pass reproduces the
first pass's content exactly. -/
theorem preprocess_idempotent_modeStable_witness :
    (preprocessCore (toRaw (preprocessCore c6Raw))).toResumeData
      = (preprocessCore c6Raw).toResumeData :=
  (preprocess_idempotent_modeStable c6Raw _ _ rfl rfl (by decide)).1

end Resumator
